import Mathlib

set_option maxRecDepth 100000

/-!
Verification development for the Efergy E2 Classic RTL-SDR decoder
(`EfergyRPI_001.c` and `EfergyRPI_log.c`).

The two source files share the same primary decode loop (`main`): an
initial wave-center calibration over `CENTERSAMP = 100` samples, then an
edge-triggered pulse-width classifier that assembles bits into bytes and
bytes into an 8-byte frame, validates the frame with a modulo-256
checksum (`calculate_watts`), and converts the payload into a power
value.  `EfergyRPI_log.c` additionally contains a diagnostic analysis
mode (`run_in_analysis_mode`, `analyze_efergy_message`,
`decode_bytes_from_pulse_counts`).

Modelling conventions:
* samples are modelled as `Int` (the C code reads `int16_t` values into
  `int` variables; all arithmetic on them is exact in `Int`);
* the 8-bit byte accumulator (`char`/`unsigned char` in C) is modelled
  as `Nat` reduced modulo 256 at each shift; since `2 * b % 256` is
  even, the C bitwise-or `bytedata | 0x1` is modelled as `+ 1`;
* byte values follow `EfergyRPI_log.c`, where the frame bytes are
  `unsigned char` and only the exponent byte is re-read as
  `signed char` (the header of that file records that the plain-`char`
  buffer of `EfergyRPI_001.c` was a signedness bug it fixed);
* C `double` arithmetic in the power computation is modelled exactly
  over `ℚ` (all intermediate values of interest are dyadic rationals);
* the `printf` of a decoded power value is modelled by appending the
  value to an `output` list in the decoder state;
* C integer division of `long` (truncation toward zero) is `Int.tdiv`,
  and the C `double`-to-`long` conversion in the analysis mode is
  truncation toward zero, `Int.tdiv q.num q.den`.
-/

/-- `VOLTAGE` of the source (reference voltage). -/
def VOLTAGE : Nat := 240

/-- `CENTERSAMP` of the source: samples used for the wave-center mean. -/
def CENTERSAMP : Nat := 100

/-- `PREAMBLE_COUNT` of the source. -/
def PREAMBLE_COUNT : Nat := 40

/-- `MINLOWBIT` of the source. -/
def MINLOWBIT : Nat := 3

/-- `MINHIGHBIT` of the source. -/
def MINHIGHBIT : Nat := 8

/-- `E2BYTECOUNT` of the source. -/
def E2BYTECOUNT : Nat := 8

/-- `FRAMEBITCOUNT` of the source (`E2BYTECOUNT * 8`). -/
def FRAMEBITCOUNT : Nat := 64

/-- Reinterpret an unsigned byte value (0..255) as a C `signed char`,
as done by the cast `(signed char) bytes[6]` in `calculate_watts` of
`EfergyRPI_log.c`. -/
def toSigned8 (b : Nat) : Int :=
  if b < 128 then (b : Int) else (b : Int) - 256

/-- The checksum accumulation of `calculate_watts`: `tbyte` is an 8-bit
accumulator summing `bytes[0] .. bytes[6]`; its final value is the sum
of the first seven bytes modulo 256. -/
def sumBytes (bytes : List Nat) : Nat :=
  bytes.getD 0 0 + bytes.getD 1 0 + bytes.getD 2 0 + bytes.getD 3 0 +
    bytes.getD 4 0 + bytes.getD 5 0 + bytes.getD 6 0

/-- The checksum test of `calculate_watts`: the first seven bytes summed
modulo 256 must equal `bytes[7]`.  (Stored bytes are always < 256.) -/
def checksumOk (bytes : List Nat) : Bool :=
  sumBytes bytes % 256 == bytes.getD 7 0

/-- The power computation of `calculate_watts`:
`current_adc = bytes[4] * 256 + bytes[5]` and
`result = (VOLTAGE * current_adc) / (32768 / pow(2, (signed char) bytes[6]))`,
with C `double` arithmetic modelled exactly over `ℚ`. -/
def powerOf (bytes : List Nat) : ℚ :=
  let current_adc : ℚ := (bytes.getD 4 0 : ℚ) * 256 + (bytes.getD 5 0 : ℚ)
  ((VOLTAGE : ℚ) * current_adc) /
    ((32768 : ℚ) / (2 : ℚ) ^ (toSigned8 (bytes.getD 6 0)))

/-- `calculate_watts` of the source: on a checksum match it prints one
power line and returns 1 (modelled as `some` of the printed value); on a
mismatch it prints no power line and returns 0 (modelled as `none`). -/
def calculate_watts (bytes : List Nat) : Option ℚ :=
  if checksumOk bytes then some (powerOf bytes) else none

/-- The mutable state of the primary decode loop in `main`
(`EfergyRPI_001.c` lines 90-124, identically `EfergyRPI_log.c`).
`bytearray` is the 9-slot frame buffer; `output` records the power
values printed by `calculate_watts`. -/
structure DecState where
  bytearray : List Nat
  bytedata : Nat
  prvsamp : Int
  hctr : Nat
  bitpos : Nat
  bytecount : Nat
  preamble : Bool
  frame : Bool
  dcenter : Nat
  dbit : Nat
  center : Int
  output : List ℚ
  deriving DecidableEq, Repr

/-- The body of the negative-edge bit classification in `main`
(the block guarded by `hctr > MINLOWBIT && frame == 1`):
increment `dbit` and `bitpos`, shift the bit into the byte accumulator,
store a completed byte, run the checksum at a completed frame (a failed
checksum re-arms the calibrator via `dcenter = CENTERSAMP`), and reset
all frame state once `dbit` exceeds `FRAMEBITCOUNT`. -/
def classify (s : DecState) : DecState :=
  let dbit := s.dbit + 1
  let bitpos := s.bitpos + 1
  let bytedata := 2 * s.bytedata % 256 + (if MINHIGHBIT < s.hctr then 1 else 0)
  let s1 :=
    if 7 < bitpos then
      let bytearray := s.bytearray.set s.bytecount bytedata
      let bytecount := s.bytecount + 1
      let s2 := { s with bytearray := bytearray, bytecount := bytecount,
                         bytedata := 0, bitpos := 0, dbit := dbit }
      if bytecount = E2BYTECOUNT then
        match calculate_watts bytearray with
        | some w => { s2 with output := s.output ++ [w] }
        | none => { s2 with dcenter := CENTERSAMP }
      else s2
    else { s with bytedata := bytedata, bitpos := bitpos, dbit := dbit }
  if FRAMEBITCOUNT < s1.dbit then
    { s1 with bitpos := 0, bytecount := 0, dbit := 0, frame := false,
              preamble := false, bytedata := 0 }
  else s1

/-- The four-way edge/pulse case analysis of `main`
(`EfergyRPI_001.c` lines 156-214), evaluated in source order:
positive edge, continuing high (with preamble detection), negative edge
(with bit classification), and the catch-all that resets the counter. -/
def caseStep (s : DecState) (cursamp : Int) : DecState :=
  if s.center < cursamp ∧ s.prvsamp < s.center then
    { s with hctr := 0 }
  else if s.center < cursamp ∧ s.center < s.prvsamp then
    let hctr := s.hctr + 1
    { s with hctr := hctr,
             preamble := if PREAMBLE_COUNT < hctr then true else s.preamble }
  else if cursamp < s.center ∧ s.center < s.prvsamp then
    let s1 := if MINLOWBIT < s.hctr ∧ s.frame then classify s else s
    { s1 with hctr := 0 }
  else
    { s with hctr := 0 }

/-- One iteration of the primary decode loop on the next sample:
while `dcenter > 0` the sample is accumulated for the wave-center mean
(installing `center / CENTERSAMP` and resetting all framing state when
the countdown reaches zero); otherwise the edge cases run, followed by
the preamble-to-frame handoff (`hctr == 0 && preamble == 1`), and
`prvsamp` is updated last. -/
def step (s : DecState) (cursamp : Int) : DecState :=
  if 0 < s.dcenter then
    let dcenter := s.dcenter - 1
    let center := s.center + cursamp
    if dcenter = 0 then
      { s with dcenter := dcenter, center := Int.tdiv center (CENTERSAMP : Int),
               hctr := 0, bytedata := 0, bytecount := 0, bitpos := 0, dbit := 0,
               preamble := false, frame := false, prvsamp := cursamp }
    else
      { s with dcenter := dcenter, center := center, prvsamp := cursamp }
  else
    let s1 := caseStep s cursamp
    let s2 := if s1.hctr = 0 ∧ s1.preamble then
                { s1 with preamble := false, frame := true }
              else s1
    { s2 with prvsamp := cursamp }

/-- The initial state of `main`: all counters zero, `dcenter` armed with
`CENTERSAMP`.  (The C `bytearray` is uninitialized but is fully written
before it is ever read; it is modelled as all zeros.) -/
def initState : DecState :=
  { bytearray := List.replicate 9 0, bytedata := 0, prvsamp := 0, hctr := 0,
    bitpos := 0, bytecount := 0, preamble := false, frame := false,
    dcenter := CENTERSAMP, dbit := 0, center := 0, output := [] }

/-- Run the decode loop from a given state over a list of samples. -/
def runSteps (s : DecState) (samples : List Int) : DecState :=
  samples.foldl step s

/-- Run the whole decoder from the initial state over a list of samples. -/
def runDecoder (samples : List Int) : DecState :=
  runSteps initState samples

/-- The byte value assembled at a negative-edge classification tick:
the accumulator shifted left with the new bit (`hctr > MINHIGHBIT`)
or-ed in. -/
def newByte (s : DecState) : Nat :=
  2 * s.bytedata % 256 + (if MINHIGHBIT < s.hctr then 1 else 0)

/-- The frame as completed by the byte stored at the current tick. -/
def completedFrame (s : DecState) : List Nat :=
  s.bytearray.set s.bytecount (newByte s)

/-- The state after one non-final calibration-countdown tick. -/
def calibTick (s : DecState) (c : Int) : DecState :=
  { s with
      dcenter := s.dcenter - 1
      center := s.center + c
      prvsamp := c }

/-- The frame-assembly invariant: the bit position stays inside a byte,
the bit tally never exceeds `FRAMEBITCOUNT`, and the tally always equals
`8 * bytecount + bitpos`.  (In particular `bytecount ≤ 8`, and
`bytecount = 8` forces `bitpos = 0`.) -/
def FrameInv (s : DecState) : Prop :=
  s.bitpos ≤ 7 ∧ s.dbit ≤ FRAMEBITCOUNT ∧ s.dbit = 8 * s.bytecount + s.bitpos

/-! ### Concrete sample streams

Streams used to exercise the decoder on concrete inputs.  After the
initial calibration block of 100 samples of value 100 the wave center is
100; samples of value 1000 are "high" and samples of value 0 are "low".
A run of 45 highs (pulse counter reaching 44 > `PREAMBLE_COUNT`)
followed by one low is a preamble plus the frame-starting negative edge.
Each data bit is encoded as 6 highs and a closing low (pulse width 5,
a logic 0) or 13 highs and a closing low (pulse width 12, a logic 1). -/

/-- Calibration warm-up block: 100 samples of value 100 (mean 100). -/
def calibBlock : List Int := List.replicate 100 100

/-- A preamble run of 45 high samples ending in one low sample. -/
def preambleRun : List Int := List.replicate 45 1000 ++ [0]

/-- One logic-0 bit: 6 high samples then a low (pulse width 5). -/
def bit0run : List Int := List.replicate 6 1000 ++ [0]

/-- One logic-1 bit: 13 high samples then a low (pulse width 12). -/
def bit1run : List Int := List.replicate 13 1000 ++ [0]

/-- Fourteen logic-0 bits (98 samples). -/
def bits14 : List Int := (List.replicate 14 bit0run).flatten

/-- Eight logic-0 bits (56 samples). -/
def bits8 : List Int := (List.replicate 8 bit0run).flatten

/-- Seven logic-0 bits (49 samples). -/
def bits7 : List Int := (List.replicate 7 bit0run).flatten

/-- A stream carrying one valid frame: 14+14+14+14+8 = 64 zero bits,
i.e. the all-zero 8-byte frame, whose checksum (0 = byte 7) is
correct.  (Concatenation is kept right-nested in chunks of at most 100
samples so that runs can be evaluated chunkwise.) -/
def validStream : List Int :=
  calibBlock ++ (preambleRun ++ (bits14 ++ (bits14 ++ (bits14 ++ (bits14 ++ bits8)))))

/-- A stream carrying one corrupted frame: 63 zero bits then a one bit,
making `bytes[7] = 1` while the first seven bytes sum to 0, so the
checksum fails and the decoder re-arms calibration. -/
def badFrameStream : List Int :=
  calibBlock ++ (preambleRun ++
    (bits14 ++ (bits14 ++ (bits14 ++ (bits14 ++ (bits7 ++ bit1run))))))

/-- The corrupted-frame stream followed by a fresh calibration block of
100 samples of value 0 (mean 0). -/
def recalStream : List Int :=
  badFrameStream ++ List.replicate 100 0

/-! ### Intermediate states of the concrete runs

The decoder state after each chunk of the streams above, verified by
kernel evaluation chunk by chunk (the kernel cannot reduce a fold over
the whole stream in one go). -/

/-- State after the calibration block: wave center 100, framing reset. -/
def afterCalib : DecState :=
  { bytearray := List.replicate 9 0, bytedata := 0, prvsamp := 100, hctr := 0,
    bitpos := 0, bytecount := 0, preamble := false, frame := false, dcenter := 0,
    dbit := 0, center := 100, output := [] }

/-- State after the preamble run: `frame` is active, counters clear. -/
def frameStart : DecState :=
  { bytearray := List.replicate 9 0, bytedata := 0, prvsamp := 0, hctr := 0,
    bitpos := 0, bytecount := 0, preamble := false, frame := true, dcenter := 0,
    dbit := 0, center := 100, output := [] }

/-- State after `n` zero bits of the frame (parametrized by the bit
tally; the byte buffer stays all zero since every assembled byte is 0). -/
def midFrame (n : Nat) : DecState :=
  { bytearray := List.replicate 9 0, bytedata := 0, prvsamp := 0, hctr := 0,
    bitpos := n % 8, bytecount := n / 8, preamble := false, frame := true,
    dcenter := 0, dbit := n, center := 100, output := [] }

/-- State after the 64th bit (a one) of `badFrameStream`: byte 7 is 1,
the checksum failed, no power line was printed, and `dcenter` was
re-armed with `CENTERSAMP` while `center` still holds the stale 100. -/
def badDone : DecState :=
  { bytearray := [0, 0, 0, 0, 0, 0, 0, 1, 0], bytedata := 0, prvsamp := 0,
    hctr := 0, bitpos := 0, bytecount := 8, preamble := false, frame := true,
    dcenter := 100, dbit := 64, center := 100, output := [] }

/-- State after the recalibration block of `recalStream`: although the
100 newly consumed samples are all 0 (mean 0), the installed wave center
is 1, because the stale center 100 was left in the accumulator. -/
def recalDone : DecState :=
  { bytearray := [0, 0, 0, 0, 0, 0, 0, 1, 0], bytedata := 0, prvsamp := 0,
    hctr := 0, bitpos := 0, bytecount := 0, preamble := false, frame := false,
    dcenter := 0, dbit := 0, center := 1, output := [] }

/-! ### Analysis mode (`EfergyRPI_log.c`) -/

/-- `ANALYZEBYTECOUNT` of the source. -/
def ANALYZEBYTECOUNT : Nat := 9

/-- `SAMPLES_PER_BIT` of the source. -/
def SAMPLES_PER_BIT : Nat := 19

/-- `SAMPLE_STORE_SIZE` of the source: `ANALYZEBITCOUNT * SAMPLES_PER_BIT`
with `ANALYZEBITCOUNT = ANALYZEBYTECOUNT * 8`, i.e. 1368. -/
def SAMPLE_STORE_SIZE : Nat := ANALYZEBYTECOUNT * 8 * SAMPLES_PER_BIT

/-- The loop of `decode_bytes_from_pulse_counts` over the stored pulse
counts, carrying the byte buffer, the byte accumulator, the bit position
and the byte count.  (The C code also increments a `dbit` counter that
it never reads; it is omitted.)  A pulse wider than `MINLOWBIT` yields a
bit (1 when wider than `MINHIGHBIT`); after 8 bits the byte is stored,
and the loop returns early once `ANALYZEBYTECOUNT` bytes are stored. -/
def decodeLoop : List Nat → List Nat → Nat → Nat → Nat → (List Nat × Nat)
  | [], bytes, _, _, bytecount => (bytes, bytecount)
  | p :: rest, bytes, bytedata, bitpos, bytecount =>
    if MINLOWBIT < p then
      let bytedata1 := 2 * bytedata % 256 + (if MINHIGHBIT < p then 1 else 0)
      let bitpos1 := bitpos + 1
      if 7 < bitpos1 then
        let bytes1 := bytes.set bytecount bytedata1
        let bytecount1 := bytecount + 1
        if bytecount1 = ANALYZEBYTECOUNT then (bytes1, bytecount1)
        else decodeLoop rest bytes1 0 0 bytecount1
      else decodeLoop rest bytes bytedata1 bitpos1 bytecount
    else decodeLoop rest bytes bytedata bitpos bytecount

/-- `decode_bytes_from_pulse_counts` of the source: decode a byte
sequence from a pulse-count store (the byte buffer is zero-initialized
by the function's first loop). -/
def decode_bytes_from_pulse_counts (pulses : List Nat) : List Nat × Nat :=
  decodeLoop pulses (List.replicate ANALYZEBYTECOUNT 0) 0 0 0

/-- The samples on the non-negative side of zero (the C loop in
`analyze_efergy_message` splits at `sample_storage[i] >= 0`). -/
def posSamples (l : List Int) : List Int := l.filter (fun x => 0 ≤ x)

/-- The samples on the negative side of zero. -/
def negSamples (l : List Int) : List Int := l.filter (fun x => x < 0)

/-- `avg_pos` of `analyze_efergy_message`: mean of the non-negative
samples, left at 0 when there are none. -/
def avg_pos (l : List Int) : ℚ :=
  if (posSamples l).length = 0 then 0
  else ((posSamples l).sum : ℚ) / ((posSamples l).length : ℚ)

/-- `avg_neg` of `analyze_efergy_message`: mean of the negative samples,
left at 0 when there are none. -/
def avg_neg (l : List Int) : ℚ :=
  if (negSamples l).length = 0 then 0
  else ((negSamples l).sum : ℚ) / ((negSamples l).length : ℚ)

/-- `difference` of `analyze_efergy_message`:
`avg_neg + (avg_pos - avg_neg) / 2`. -/
def analysisDifference (l : List Int) : ℚ :=
  avg_neg l + (avg_pos l - avg_neg l) / 2

/-- C `double`-to-`long` conversion: truncation toward zero. -/
def ratTrunc (q : ℚ) : Int := Int.tdiv q.num (q.den : Int)

/-- The recalibrated wave center installed by `analyze_efergy_message`
(`analysis_wavecenter = difference`, a `double` stored into a `long`). -/
def analysisCenter (l : List Int) : Int := ratTrunc (analysisDifference l)

/-- The pulse-histogram loop of `analyze_efergy_message`: for each
sample relative to the recalibrated center, a completed run of samples
above center is appended to the P store when a below-center sample
arrives, and vice versa.  A run still open at the end of the buffer is
not appended, as in the source. -/
def runsLoop : List Int → Int → Nat → Nat → List Nat → List Nat → (List Nat × List Nat)
  | [], _, _, _, ps, ss => (ps, ss)
  | x :: rest, center, pulse_count, space_count, ps, ss =>
    if x - center < 0 then
      let ps1 := if 0 < pulse_count then ps ++ [pulse_count] else ps
      runsLoop rest center 0 (space_count + 1) ps1 ss
    else
      let ss1 := if 0 < space_count then ss ++ [space_count] else ss
      runsLoop rest center (pulse_count + 1) 0 ps ss1

/-- `pulse_count_storage`: runs of consecutive samples at or above the
center ("P" runs). -/
def pulseRuns (l : List Int) (center : Int) : List Nat :=
  (runsLoop l center 0 0 [] []).1

/-- `space_count_storage`: runs of consecutive samples below the
center ("N" runs). -/
def spaceRuns (l : List Int) (center : Int) : List Nat :=
  (runsLoop l center 0 0 [] []).2

/-- The observable outcome of `analyze_efergy_message`: the installed
wave center, which polarity was decoded (`fromPositive` true when the
"Decode from positive pulses" path ran), and the decoded bytes. -/
structure AnalyzeResult where
  wavecenter : Int
  fromPositive : Bool
  bytes : List Nat
  bytecount : Nat
  deriving DecidableEq, Repr

/-- `analyze_efergy_message` of the source (its decoding tail): install
the recalibrated center, build both run histograms against it, then
decode from the positive-run histogram when `sample_storage[2]` is below
the new center, and from the negative-run histogram otherwise. -/
def analyze_efergy_message (samples : List Int) : AnalyzeResult :=
  let wc := analysisCenter samples
  if samples.getD 2 0 < wc then
    let r := decode_bytes_from_pulse_counts (pulseRuns samples wc)
    ⟨wc, true, r.1, r.2⟩
  else
    let r := decode_bytes_from_pulse_counts (spaceRuns samples wc)
    ⟨wc, false, r.1, r.2⟩

/-- The capture loop of `run_in_analysis_mode`: starting from
`sample_store_index = idx`, each incoming sample is stored; while the
index is below `SAMPLE_STORE_SIZE - 1` it advances, otherwise the loop
analyzes and breaks.  Returns the stored samples, the input left
unconsumed, and whether the analysis fired (end of input without a full
buffer means no analysis, as `feof` ends the loop). -/
def captureLoop : List Int → Nat → (List Int × List Int × Bool)
  | [], _ => ([], [], false)
  | c :: rest, idx =>
    if idx < SAMPLE_STORE_SIZE - 1 then
      let r := captureLoop rest (idx + 1)
      (c :: r.1, r.2.1, r.2.2)
    else ([c], rest, true)

/-- One capture-and-process round of `run_in_analysis_mode`: the store
index is reset to 0 and samples are captured until the buffer is full.
At the analysis call `sample_store_index` equals `SAMPLE_STORE_SIZE - 1`
(the final sample is stored in the else branch, which does not
increment), and every loop inside `analyze_efergy_message` runs
`i < sample_store_index`, so the program analyzes only the first
`SAMPLE_STORE_SIZE - 1` stored samples — the last stored sample is never
read.  Returns the analysis outcome (if any) and the input remaining for
the next round. -/
def analysisRound (input : List Int) : Option AnalyzeResult × List Int :=
  let r := captureLoop input 0
  (if r.2.2 then some (analyze_efergy_message (r.1.take (SAMPLE_STORE_SIZE - 1)))
   else none, r.2.1)

/-! ### Concrete inputs for witnesses and counterexamples -/

/-- A reachable mid-frame state one bit before frame completion
(it equals the state of `badFrameStream` after 63 bits, with the high
run of the final bit already counted): the next below-center sample
completes the all-zero frame, whose checksum is valid. -/
def wFrameState : DecState :=
  { bytearray := List.replicate 9 0, bytedata := 0, prvsamp := 1000, hctr := 5,
    bitpos := 7, bytecount := 7, preamble := false, frame := true, dcenter := 0,
    dbit := 63, center := 100, output := [] }

/-- Like `wFrameState` but with a first byte of 1, so the completed
frame has checksum byte 0 while its first seven bytes sum to 1: the
checksum fails. -/
def wBadState : DecState :=
  { bytearray := [1, 0, 0, 0, 0, 0, 0, 0, 0], bytedata := 0, prvsamp := 1000,
    hctr := 5, bitpos := 7, bytecount := 7, preamble := false, frame := true,
    dcenter := 0, dbit := 63, center := 100, output := [] }

/-- A mid-frame state whose high run (width 5) is terminated by a sample
equal to the wave center (0): prev = 5 > 0, cur = 0 = center. -/
def c5State : DecState :=
  { bytearray := List.replicate 9 0, bytedata := 0, prvsamp := 5, hctr := 5,
    bitpos := 0, bytecount := 0, preamble := false, frame := true, dcenter := 0,
    dbit := 0, center := 0, output := [] }

/-- A state at the frame-bit bound: `dbit = 64` with a qualifying high
run about to be classified, which must reset all frame state. -/
def c6State : DecState :=
  { bytearray := List.replicate 9 0, bytedata := 0, prvsamp := 5, hctr := 4,
    bitpos := 0, bytecount := 8, preamble := false, frame := true, dcenter := 0,
    dbit := 64, center := 0, output := [] }

/-- A state at the end of a preamble run: the preamble flag is set, the
next below-center sample ends the run and hands off to frame mode. -/
def c7State : DecState :=
  { bytearray := List.replicate 9 0, bytedata := 0, prvsamp := 5, hctr := 44,
    bitpos := 0, bytecount := 0, preamble := true, frame := false, dcenter := 0,
    dbit := 0, center := 0, output := [] }

/-- A state whose high run is terminated by a sample equal to the wave
center while the previous sample is above it. -/
def c10State : DecState :=
  { bytearray := List.replicate 9 0, bytedata := 0, prvsamp := 7, hctr := 6,
    bitpos := 2, bytecount := 1, preamble := false, frame := true, dcenter := 0,
    dbit := 10, center := 0, output := [] }

/-- A mid-frame state with a completed high run of width exactly
`MINHIGHBIT` (8), at the dead-zone boundary. -/
def c4State : DecState :=
  { bytearray := List.replicate 9 0, bytedata := 3, prvsamp := 9, hctr := 8,
    bitpos := 2, bytecount := 1, preamble := false, frame := true, dcenter := 0,
    dbit := 10, center := 0, output := [] }

/-- A captured buffer whose recalibrated center is 0 and whose third
sample (-100) lies below it. -/
def c8Samples : List Int := [100, 100, -100, -100]

/-- An input longer than the capture capacity. -/
def c9Input : List Int := List.replicate 1400 5

/-! ### Helper lemmas -/

/-- Folding over a concatenation runs the two pieces in sequence. -/
lemma runSteps_append (s : DecState) (a b : List Int) :
    runSteps s (a ++ b) = runSteps (runSteps s a) b := by
  simp [runSteps]

lemma run_calib : runSteps initState calibBlock = afterCalib := by decide

lemma run_preamble : runSteps afterCalib preambleRun = frameStart := by decide

lemma run_bits14_0 : runSteps frameStart bits14 = midFrame 14 := by decide

lemma run_bits14_14 : runSteps (midFrame 14) bits14 = midFrame 28 := by decide

lemma run_bits14_28 : runSteps (midFrame 28) bits14 = midFrame 42 := by decide

lemma run_bits14_42 : runSteps (midFrame 42) bits14 = midFrame 56 := by decide

lemma run_bits7 : runSteps (midFrame 56) bits7 = midFrame 63 := by decide

lemma run_bit1 : runSteps (midFrame 63) bit1run = badDone := by decide

lemma run_recal : runSteps badDone (List.replicate 100 0) = recalDone := by decide

/-- The full run over `validStream`, reduced to its final chunk.
(The final state's `output` holds a rational power value, on which
decidable state equality cannot evaluate, so the last 8 bits are kept
as an unevaluated `runSteps` and only projections of it are computed.) -/
lemma runDecoder_validStream :
    runDecoder validStream = runSteps (midFrame 56) bits8 := by
  rw [runDecoder, validStream, runSteps_append, run_calib, runSteps_append,
    run_preamble, runSteps_append, run_bits14_0, runSteps_append, run_bits14_14,
    runSteps_append, run_bits14_28, runSteps_append, run_bits14_42]

/-- The full run over `badFrameStream`. -/
lemma runDecoder_badFrameStream : runDecoder badFrameStream = badDone := by
  rw [runDecoder, badFrameStream, runSteps_append, run_calib, runSteps_append,
    run_preamble, runSteps_append, run_bits14_0, runSteps_append, run_bits14_14,
    runSteps_append, run_bits14_28, runSteps_append, run_bits14_42,
    runSteps_append, run_bits7, run_bit1]

/-- The full run over `recalStream`. -/
lemma runDecoder_recalStream : runDecoder recalStream = recalDone := by
  rw [runDecoder, recalStream, runSteps_append]
  rw [show runSteps initState badFrameStream = badDone from runDecoder_badFrameStream]
  exact run_recal

lemma step_calib_mid (s : DecState) (c : Int) (hdc : 0 < s.dcenter)
    (h0 : ¬ (s.dcenter - 1 = 0)) : step s c = calibTick s c := by
  rw [step, if_pos hdc, if_neg h0]
  rfl

/-- Running the calibration countdown to completion: with `dcenter`
equal to the number of remaining samples, the final state has the
truncated mean of the accumulator installed as the center, no new
output, and all framing state reset. -/
lemma calib_run (L : List Int) (s : DecState) (hlen : s.dcenter = L.length)
    (hpos : 0 < L.length) :
    (runSteps s L).dcenter = 0 ∧
    (runSteps s L).output = s.output ∧
    (runSteps s L).center = Int.tdiv (s.center + L.sum) (CENTERSAMP : Int) ∧
    (runSteps s L).hctr = 0 ∧ (runSteps s L).bytedata = 0 ∧
    (runSteps s L).bytecount = 0 ∧ (runSteps s L).bitpos = 0 ∧
    (runSteps s L).dbit = 0 ∧ (runSteps s L).preamble = false ∧
    (runSteps s L).frame = false := by
  induction L generalizing s with
  | nil => simp at hpos
  | cons c rest ih =>
    have hdc : 0 < s.dcenter := by simp [hlen]
    cases rest with
    | nil =>
      have h0 : s.dcenter - 1 = 0 := by simp [hlen]
      simp [runSteps, step, hdc, h0]
    | cons d rest2 =>
      have h0 : ¬ (s.dcenter - 1 = 0) := by simp [hlen]
      have hrun : runSteps s (c :: d :: rest2) = runSteps (calibTick s c) (d :: rest2) := by
        rw [runSteps, List.foldl, step_calib_mid s c hdc h0]
        rfl
      have ih' := ih (calibTick s c) (by simp [calibTick, hlen]) (by simp)
      rw [hrun]
      refine ⟨ih'.1, ?_, ?_, ih'.2.2.2⟩
      · rw [ih'.2.1]
        rfl
      · rw [ih'.2.2.1]
        simp [calibTick]
        ring_nf

/-- The frame-completion tick: a negative edge with a qualifying pulse
width while `bitpos = 7` and `bytecount = 7` stores the eighth byte and
runs `calculate_watts` on the completed frame; a match appends its
printed value to the output, a mismatch re-arms `dcenter`. -/
lemma step_completes_frame (s : DecState) (c : Int)
    (hd : s.dcenter = 0) (hf : s.frame = true) (hpr : s.center < s.prvsamp)
    (hc : c < s.center) (hh : MINLOWBIT < s.hctr) (hbp : s.bitpos = 7)
    (hbc : s.bytecount = 7) :
    (step s c).output = s.output ++ (calculate_watts (completedFrame s)).toList ∧
    (step s c).dcenter = (if checksumOk (completedFrame s) then 0 else CENTERSAMP) := by
  have hA : ¬ (s.center < c) := by omega
  rcases Nat.lt_or_ge FRAMEBITCOUNT (s.dbit + 1) with hbit | hbit
  · cases hck : checksumOk (completedFrame s) with
    | false =>
      simp only [completedFrame, newByte, hbc] at hck
      simp [step, caseStep, classify, calculate_watts, completedFrame, newByte,
        hd, hA, hc, hpr, hh, hbp, hbc, hck, hf, hbit, E2BYTECOUNT]
    | true =>
      simp only [completedFrame, newByte, hbc] at hck
      simp [step, caseStep, classify, calculate_watts, completedFrame, newByte,
        hd, hA, hc, hpr, hh, hbp, hbc, hck, hf, hbit, E2BYTECOUNT]
  · have hbit2 : ¬ (FRAMEBITCOUNT < s.dbit + 1) := Nat.not_lt.mpr hbit
    cases hck : checksumOk (completedFrame s) with
    | false =>
      simp only [completedFrame, newByte, hbc] at hck
      cases hp : s.preamble with
      | false =>
        simp [step, caseStep, classify, calculate_watts, completedFrame, newByte,
          hd, hA, hc, hpr, hh, hbp, hbc, hck, hf, hp, hbit2, E2BYTECOUNT]
      | true =>
        simp [step, caseStep, classify, calculate_watts, completedFrame, newByte,
          hd, hA, hc, hpr, hh, hbp, hbc, hck, hf, hp, hbit2, E2BYTECOUNT]
    | true =>
      simp only [completedFrame, newByte, hbc] at hck
      cases hp : s.preamble with
      | false =>
        simp [step, caseStep, classify, calculate_watts, completedFrame, newByte,
          hd, hA, hc, hpr, hh, hbp, hbc, hck, hf, hp, hbit2, E2BYTECOUNT]
      | true =>
        simp [step, caseStep, classify, calculate_watts, completedFrame, newByte,
          hd, hA, hc, hpr, hh, hbp, hbc, hck, hf, hp, hbit2, E2BYTECOUNT]

/-- A qualifying negative-edge classification that stays below the frame
bit bound: the tally advances by one and the assembled byte value goes
to the accumulator, or to the byte buffer at a byte boundary. -/
lemma step_classify_bit (s : DecState) (c : Int)
    (hd : s.dcenter = 0) (hf : s.frame = true) (hpr : s.center < s.prvsamp)
    (hc : c < s.center) (hh : MINLOWBIT < s.hctr)
    (hdb : s.dbit < FRAMEBITCOUNT) :
    (step s c).dbit = s.dbit + 1 ∧ (step s c).hctr = 0 ∧
    (7 < s.bitpos + 1 →
      (step s c).bytearray = s.bytearray.set s.bytecount (newByte s) ∧
      (step s c).bytedata = 0 ∧ (step s c).bitpos = 0 ∧
      (step s c).bytecount = s.bytecount + 1) ∧
    (¬ 7 < s.bitpos + 1 →
      (step s c).bytedata = newByte s ∧ (step s c).bitpos = s.bitpos + 1 ∧
      (step s c).bytecount = s.bytecount ∧ (step s c).bytearray = s.bytearray) := by
  have hA : ¬ (s.center < c) := by omega
  have hbit2 : ¬ (FRAMEBITCOUNT < s.dbit + 1) := by omega
  by_cases hbp : 7 < s.bitpos + 1
  · by_cases hE : s.bytecount + 1 = E2BYTECOUNT
    · cases hck : checksumOk (s.bytearray.set s.bytecount (newByte s)) with
      | false =>
        simp only [newByte] at hck
        cases hp : s.preamble with
        | false =>
          simp [step, caseStep, classify, calculate_watts, newByte,
            hd, hA, hc, hpr, hh, hf, hbp, hE, hp, hbit2, hck]
        | true =>
          simp [step, caseStep, classify, calculate_watts, newByte,
            hd, hA, hc, hpr, hh, hf, hbp, hE, hp, hbit2, hck]
      | true =>
        simp only [newByte] at hck
        cases hp : s.preamble with
        | false =>
          simp [step, caseStep, classify, calculate_watts, newByte,
            hd, hA, hc, hpr, hh, hf, hbp, hE, hp, hbit2, hck]
        | true =>
          simp [step, caseStep, classify, calculate_watts, newByte,
            hd, hA, hc, hpr, hh, hf, hbp, hE, hp, hbit2, hck]
    · cases hp : s.preamble with
      | false =>
        simp [step, caseStep, classify, calculate_watts, newByte,
          hd, hA, hc, hpr, hh, hf, hbp, hE, hp, hbit2]
      | true =>
        simp [step, caseStep, classify, calculate_watts, newByte,
          hd, hA, hc, hpr, hh, hf, hbp, hE, hp, hbit2]
  · cases hp : s.preamble with
    | false =>
      simp [step, caseStep, classify, calculate_watts, newByte,
        hd, hA, hc, hpr, hh, hf, hbp, hp, hbit2]
    | true =>
      simp [step, caseStep, classify, calculate_watts, newByte,
        hd, hA, hc, hpr, hh, hf, hbp, hp, hbit2]

/-- A negative edge whose run does not qualify (too narrow, or framing
inactive): nothing is classified and the counter resets. -/
lemma step_noise_drop (s : DecState) (c : Int)
    (hd : s.dcenter = 0) (hpr : s.center < s.prvsamp) (hc : c < s.center)
    (hh : ¬ (MINLOWBIT < s.hctr ∧ s.frame = true)) :
    (step s c).dbit = s.dbit ∧ (step s c).hctr = 0 ∧
    (step s c).bitpos = s.bitpos ∧ (step s c).bytecount = s.bytecount ∧
    (step s c).bytedata = s.bytedata ∧ (step s c).bytearray = s.bytearray ∧
    (step s c).output = s.output := by
  have hA : ¬ (s.center < c) := by omega
  cases hp : s.preamble with
  | false =>
    simp [step, caseStep, hd, hA, hc, hpr, hh, hp]
  | true =>
    simp [step, caseStep, hd, hA, hc, hpr, hh, hp]

/-- A tick on which the current or the previous sample equals the wave
center: no edge case fires, the counter resets, nothing is classified. -/
lemma step_center_equal (s : DecState) (c : Int)
    (hd : s.dcenter = 0) (heq : c = s.center ∨ s.prvsamp = s.center) :
    (step s c).hctr = 0 ∧ (step s c).dbit = s.dbit ∧
    (step s c).bitpos = s.bitpos ∧ (step s c).bytecount = s.bytecount ∧
    (step s c).bytedata = s.bytedata ∧ (step s c).bytearray = s.bytearray ∧
    (step s c).output = s.output := by
  have h1 : ¬ (s.center < c ∧ s.prvsamp < s.center) := by omega
  have h2 : ¬ (s.center < c ∧ s.center < s.prvsamp) := by omega
  have h3 : ¬ (c < s.center ∧ s.center < s.prvsamp) := by omega
  cases hp : s.preamble with
  | false =>
    simp [step, caseStep, hd, h1, h2, h3, hp]
  | true =>
    simp [step, caseStep, hd, h1, h2, h3, hp]

/-- The classification block never turns the preamble flag on. -/
lemma classify_preamble (s : DecState) :
    (classify s).preamble = s.preamble ∨ (classify s).preamble = false := by
  simp only [classify, calculate_watts]
  by_cases hbp : 7 < s.bitpos + 1 <;>
    by_cases hE : s.bytecount + 1 = E2BYTECOUNT <;>
      by_cases hck : checksumOk (s.bytearray.set s.bytecount
        (2 * s.bytedata % 256 + if MINHIGHBIT < s.hctr then 1 else 0)) = true <;>
        by_cases hdb : FRAMEBITCOUNT < s.dbit + 1 <;>
          simp [hbp, hE, hck, hdb]

/-- The three behaviours of the four-way case analysis: everything except
a continuing high or a negative edge just clears the pulse counter. -/
lemma caseStep_char (s : DecState) (c : Int) :
    caseStep s c = { s with hctr := 0 } ∨
    (s.center < c ∧ s.center < s.prvsamp ∧
      caseStep s c =
        { s with
            hctr := s.hctr + 1
            preamble := if PREAMBLE_COUNT < s.hctr + 1 then true else s.preamble }) ∨
    (c < s.center ∧ s.center < s.prvsamp ∧
      caseStep s c =
        { (if MINLOWBIT < s.hctr ∧ s.frame then classify s else s) with hctr := 0 }) := by
  by_cases h1 : s.center < c ∧ s.prvsamp < s.center
  · left
    rw [caseStep, if_pos h1]
  · by_cases h2 : s.center < c ∧ s.center < s.prvsamp
    · right; left
      refine ⟨h2.1, h2.2, ?_⟩
      rw [caseStep, if_neg h1, if_pos h2]
    · by_cases h3 : c < s.center ∧ s.center < s.prvsamp
      · right; right
        refine ⟨h3.1, h3.2, ?_⟩
        rw [caseStep, if_neg h1, if_neg h2, if_pos h3]
      · left
        rw [caseStep, if_neg h1, if_neg h2, if_neg h3]

/-- If the case analysis turned the preamble flag on, it was the
continuing-high case with the counter beyond `PREAMBLE_COUNT`. -/
lemma caseStep_preamble_on (s : DecState) (c : Int) (hpf : s.preamble = false)
    (hps : (caseStep s c).preamble = true) :
    s.center < c ∧ s.center < s.prvsamp ∧ PREAMBLE_COUNT < s.hctr + 1 := by
  rcases caseStep_char s c with h | ⟨ha, hb, h⟩ | ⟨ha, hb, h⟩
  · rw [h] at hps
    simp [hpf] at hps
  · refine ⟨ha, hb, ?_⟩
    by_cases h40 : PREAMBLE_COUNT < s.hctr + 1
    · exact h40
    · rw [h] at hps
      simp [h40, hpf] at hps
  · rw [h] at hps
    by_cases h4 : MINLOWBIT < s.hctr ∧ s.frame = true
    · rcases classify_preamble s with hcp | hcp <;>
        simp [h4, hcp, hpf] at hps
    · simp [h4, hpf] at hps

/-- If a decode-phase step turned the preamble flag on, the tick was a
continuing high with the counter beyond `PREAMBLE_COUNT`. -/
lemma step_preamble_on (s : DecState) (c : Int) (hd : s.dcenter = 0)
    (hpf : s.preamble = false) (hps : (step s c).preamble = true) :
    s.center < c ∧ s.center < s.prvsamp ∧ PREAMBLE_COUNT < s.hctr + 1 := by
  apply caseStep_preamble_on s c hpf
  by_cases hh : (caseStep s c).hctr = 0 ∧ (caseStep s c).preamble = true
  · exact hh.2
  · simp only [step, hd] at hps
    simp only [Nat.lt_irrefl, if_false] at hps
    simp [hh] at hps
    exact hps

/-- The preamble-to-frame handoff: when the pulse counter is 0 after
case evaluation and the preamble flag is set, the step clears the
preamble flag and activates framing. -/
lemma step_handoff (s : DecState) (c : Int) (hd : s.dcenter = 0)
    (hh : (caseStep s c).hctr = 0 ∧ (caseStep s c).preamble = true) :
    (step s c).preamble = false ∧ (step s c).frame = true := by
  simp [step, hd, hh]

/-- The classification block never turns the frame flag on. -/
lemma classify_frame (s : DecState) :
    (classify s).frame = s.frame ∨ (classify s).frame = false := by
  simp only [classify, calculate_watts]
  by_cases hbp : 7 < s.bitpos + 1 <;>
    by_cases hE : s.bytecount + 1 = E2BYTECOUNT <;>
      by_cases hck : checksumOk (s.bytearray.set s.bytecount
        (2 * s.bytedata % 256 + if MINHIGHBIT < s.hctr then 1 else 0)) = true <;>
        by_cases hdb : FRAMEBITCOUNT < s.dbit + 1 <;>
          simp [hbp, hE, hck, hdb]

/-- The frame flag turns on exactly at the handoff: with framing
inactive, a decode-phase step activates it iff after case evaluation the
pulse counter is 0 while the preamble flag is set. -/
lemma step_frame_on (s : DecState) (c : Int) (hd : s.dcenter = 0)
    (hf : s.frame = false) :
    (step s c).frame = true ↔
      ((caseStep s c).hctr = 0 ∧ (caseStep s c).preamble = true) := by
  constructor
  · intro hfr
    by_contra hh
    have hcf : (caseStep s c).frame = false := by
      rcases caseStep_char s c with h | ⟨_, _, h⟩ | ⟨_, _, h⟩
      · rw [h]; exact hf
      · rw [h]; exact hf
      · rw [h]
        by_cases h4 : MINLOWBIT < s.hctr ∧ s.frame = true
        · rw [h4.2] at hf
          exact absurd hf (by simp)
        · simp [h4, hf]
    simp [step, hd, hh, hcf] at hfr
  · intro hh
    exact (step_handoff s c hd hh).2

/-- While a high run is still in progress (continuing-high tick), frame
assembly does not begin. -/
lemma step_high_keeps_frame (s : DecState) (c : Int) (hd : s.dcenter = 0)
    (hhi : s.center < c ∧ s.center < s.prvsamp) (hf : s.frame = false) :
    (step s c).frame = false := by
  have h1 : ¬ (s.prvsamp < s.center) := by
    rcases hhi with ⟨_, hb⟩
    omega
  simp [step, caseStep, hd, hhi.1, hhi.2, h1, hf]

lemma classify_inv (s : DecState) (h : FrameInv s) : FrameInv (classify s) := by
  obtain ⟨h1, h2, h3⟩ := h
  simp only [FRAMEBITCOUNT] at h2
  simp only [classify, calculate_watts, FRAMEBITCOUNT, E2BYTECOUNT]
  by_cases hbp : 7 < s.bitpos + 1 <;>
    by_cases hE : s.bytecount + 1 = 8 <;>
      by_cases hck : checksumOk (s.bytearray.set s.bytecount
        (2 * s.bytedata % 256 + if MINHIGHBIT < s.hctr then 1 else 0)) = true <;>
        by_cases hdb : 64 < s.dbit + 1 <;>
          simp [FrameInv, FRAMEBITCOUNT, hbp, hE, hck, hdb] <;> omega

lemma caseStep_inv (s : DecState) (c : Int) (h : FrameInv s) :
    FrameInv (caseStep s c) := by
  rcases caseStep_char s c with hcc | ⟨_, _, hcc⟩ | ⟨_, _, hcc⟩ <;> rw [hcc]
  · exact h
  · exact h
  · by_cases h4 : MINLOWBIT < s.hctr ∧ s.frame = true
    · rw [if_pos h4]
      have := classify_inv s h
      simpa [FrameInv] using this
    · rw [if_neg h4]
      exact h

lemma step_inv (s : DecState) (c : Int) (h : FrameInv s) : FrameInv (step s c) := by
  by_cases hdc : 0 < s.dcenter
  · by_cases h0 : s.dcenter - 1 = 0
    · simp [step, FrameInv, hdc, h0]
    · simp only [step, if_pos hdc, if_neg h0]
      exact h
  · have hcs := caseStep_inv s c h
    simp only [step, if_neg hdc]
    by_cases hh : (caseStep s c).hctr = 0 ∧ (caseStep s c).preamble = true <;>
      simp [hh] <;> exact hcs

lemma runSteps_inv (L : List Int) (s : DecState) (h : FrameInv s) :
    FrameInv (runSteps s L) := by
  induction L generalizing s with
  | nil => exact h
  | cons c rest ih =>
    have h1 : runSteps s (c :: rest) = runSteps (step s c) rest := rfl
    rw [h1]
    exact ih (step s c) (step_inv s c h)

lemma initState_inv : FrameInv initState := by
  simp [FrameInv, initState]

/-- Classifying a bit when the tally is already at the frame bound
resets the bit position, byte count, tally, accumulator and both flags. -/
lemma step_dbit_overflow (s : DecState) (c : Int)
    (hd : s.dcenter = 0) (hf : s.frame = true) (hpr : s.center < s.prvsamp)
    (hc : c < s.center) (hh : MINLOWBIT < s.hctr)
    (hdb : FRAMEBITCOUNT ≤ s.dbit) :
    (step s c).bitpos = 0 ∧ (step s c).bytecount = 0 ∧ (step s c).dbit = 0 ∧
    (step s c).bytedata = 0 ∧ (step s c).preamble = false ∧
    (step s c).frame = false := by
  have hA : ¬ (s.center < c) := by omega
  have hbit : FRAMEBITCOUNT < s.dbit + 1 := by omega
  by_cases hbp : 7 < s.bitpos + 1
  · by_cases hE : s.bytecount + 1 = E2BYTECOUNT
    · cases hck : checksumOk (s.bytearray.set s.bytecount (newByte s)) with
      | false =>
        simp only [newByte] at hck
        simp [step, caseStep, classify, calculate_watts,
          hd, hA, hc, hpr, hh, hf, hbp, hE, hbit, hck]
      | true =>
        simp only [newByte] at hck
        simp [step, caseStep, classify, calculate_watts,
          hd, hA, hc, hpr, hh, hf, hbp, hE, hbit, hck]
    · simp [step, caseStep, classify, calculate_watts,
        hd, hA, hc, hpr, hh, hf, hbp, hE, hbit]
  · simp [step, caseStep, classify, calculate_watts,
      hd, hA, hc, hpr, hh, hf, hbp, hbit]

/-- The negative-edge case of the case analysis. -/
lemma caseStep_negedge (s : DecState) (c : Int) (hc : c < s.center)
    (hpr : s.center < s.prvsamp) :
    caseStep s c =
      { (if MINLOWBIT < s.hctr ∧ s.frame then classify s else s) with hctr := 0 } := by
  have h1 : ¬ (s.center < c ∧ s.prvsamp < s.center) := by omega
  have h2 : ¬ (s.center < c ∧ s.center < s.prvsamp) := by omega
  rw [caseStep, if_neg h1, if_neg h2, if_pos ⟨hc, hpr⟩]

/-- In the decode phase, the pulse counter after a step is the pulse
counter after case evaluation (the handoff does not change it). -/
lemma step_hctr (s : DecState) (c : Int) (hd : s.dcenter = 0) :
    (step s c).hctr = (caseStep s c).hctr := by
  simp only [step, hd, Nat.lt_irrefl, if_false]
  by_cases hh : (caseStep s c).hctr = 0 ∧ (caseStep s c).preamble = true <;>
    simp [hh]

/-- The capture loop stores every incoming sample while the index is
within bounds; with enough input it fills the buffer exactly and leaves
the rest unconsumed, otherwise it stores everything and never fires. -/
lemma captureLoop_spec (input : List Int) (idx : Nat)
    (hidx : idx < SAMPLE_STORE_SIZE) :
    (SAMPLE_STORE_SIZE - idx ≤ input.length →
      captureLoop input idx =
        (input.take (SAMPLE_STORE_SIZE - idx),
         input.drop (SAMPLE_STORE_SIZE - idx), true)) ∧
    (input.length < SAMPLE_STORE_SIZE - idx →
      captureLoop input idx = (input, [], false)) := by
  induction input generalizing idx with
  | nil =>
    constructor
    · intro h
      simp at h
      omega
    · intro _
      rfl
  | cons c rest ih =>
    have hsz : SAMPLE_STORE_SIZE = 1368 := by decide
    by_cases hlt : idx < SAMPLE_STORE_SIZE - 1
    · have := ih (idx + 1) (by omega)
      constructor
      · intro h
        have harith : SAMPLE_STORE_SIZE - idx = (SAMPLE_STORE_SIZE - (idx + 1)) + 1 := by
          omega
        have h2 : SAMPLE_STORE_SIZE - (idx + 1) ≤ rest.length := by
          simp at h
          omega
        simp [captureLoop, hlt, this.1 h2, harith]
      · intro h
        have h2 : rest.length < SAMPLE_STORE_SIZE - (idx + 1) := by
          simp at h
          omega
        simp [captureLoop, hlt, this.2 h2]
    · have hidx1 : idx = SAMPLE_STORE_SIZE - 1 := by omega
      constructor
      · intro h
        have h1 : SAMPLE_STORE_SIZE - idx = 1 := by omega
        simp [captureLoop, hlt, h1]
      · intro h
        have h1 : SAMPLE_STORE_SIZE - idx = 1 := by omega
        rw [h1] at h
        simp at h

/-! ### Claim theorems -/

/-- Claim C1: a completed 8-byte frame is valid iff the sum of its first
7 bytes modulo 256 equals its 8th byte; a valid frame produces exactly
one power output line and leaves the calibration countdown unarmed,
while an invalid frame produces no output, arms the countdown with
`CENTERSAMP`, and the next `CENTERSAMP` samples are then consumed by a
fresh wave-center calibration (no output, framing reset) before any
further decoding. -/
theorem checksum_gates_output_and_recalibration (s : DecState) (c : Int)
    (hd : s.dcenter = 0) (hf : s.frame = true) (hpr : s.center < s.prvsamp)
    (hc : c < s.center) (hh : MINLOWBIT < s.hctr) (hbp : s.bitpos = 7)
    (hbc : s.bytecount = 7) :
    (sumBytes (completedFrame s) % 256 = (completedFrame s).getD 7 0 →
      (step s c).output = s.output ++ [powerOf (completedFrame s)] ∧
      (step s c).dcenter = 0) ∧
    (sumBytes (completedFrame s) % 256 ≠ (completedFrame s).getD 7 0 →
      (step s c).output = s.output ∧ (step s c).dcenter = CENTERSAMP ∧
      (∀ L : List Int, L.length = CENTERSAMP →
        (runSteps (step s c) L).output = s.output ∧
        (runSteps (step s c) L).dcenter = 0 ∧
        (runSteps (step s c) L).frame = false)) := by
  have hmain := step_completes_frame s c hd hf hpr hc hh hbp hbc
  constructor
  · intro hsum
    have hck : checksumOk (completedFrame s) = true := by
      simp [checksumOk, hsum]
    rw [hck] at hmain
    constructor
    · rw [hmain.1]
      simp [calculate_watts, hck]
    · simpa using hmain.2
  · intro hsum
    have hck : checksumOk (completedFrame s) = false := by
      simpa [checksumOk] using hsum
    rw [hck] at hmain
    have h1 : (step s c).output = s.output := by
      rw [hmain.1]
      simp [calculate_watts, hck]
    have h2 : (step s c).dcenter = CENTERSAMP := by
      simpa using hmain.2
    refine ⟨h1, h2, ?_⟩
    intro L hL
    have hcal := calib_run L (step s c) (by rw [h2, hL]) (by rw [hL]; decide)
    refine ⟨?_, hcal.1, hcal.2.2.2.2.2.2.2.2.2⟩
    rw [hcal.2.1, h1]

/-- Witness for C1 at concrete states: `wFrameState` completes the
all-zero frame (valid checksum, one output line), and `wBadState`
completes a frame with checksum byte 0 but byte sum 1 (no output,
recalibration over the next 100 samples). -/
theorem checksum_gates_output_and_recalibration_witness :
    ((step wFrameState 0).output =
        wFrameState.output ++ [powerOf (completedFrame wFrameState)] ∧
      (step wFrameState 0).dcenter = 0) ∧
    ((step wBadState 0).output = wBadState.output ∧
      (step wBadState 0).dcenter = CENTERSAMP ∧
      (runSteps (step wBadState 0) (List.replicate 100 0)).output =
        wBadState.output ∧
      (runSteps (step wBadState 0) (List.replicate 100 0)).dcenter = 0 ∧
      (runSteps (step wBadState 0) (List.replicate 100 0)).frame = false) := by
  constructor
  · exact (checksum_gates_output_and_recalibration wFrameState 0 (by decide)
      (by decide) (by decide) (by decide) (by decide) (by decide) (by decide)).1
      (by decide)
  · have h := (checksum_gates_output_and_recalibration wBadState 0 (by decide)
      (by decide) (by decide) (by decide) (by decide) (by decide) (by decide)).2
      (by decide)
    have hL := h.2.2 (List.replicate 100 0) (by decide)
    exact ⟨h.1, h.2.1, hL.1, hL.2.1, hL.2.2⟩

/-- Claim C2: the power value emitted for a frame accepted by the
checksum is `VOLTAGE` (240) times the big-endian 16-bit unsigned ADC
reading `bytes[4] * 256 + bytes[5]`, divided by
`32768 / 2 ^ bytes[6]` with `bytes[6]` read as a signed exponent. -/
theorem power_formula_on_valid_frame (s : DecState) (c : Int)
    (hd : s.dcenter = 0) (hf : s.frame = true) (hpr : s.center < s.prvsamp)
    (hc : c < s.center) (hh : MINLOWBIT < s.hctr) (hbp : s.bitpos = 7)
    (hbc : s.bytecount = 7)
    (hchk : checksumOk (completedFrame s) = true) :
    (step s c).output = s.output ++
      [((VOLTAGE : ℚ) * (((completedFrame s).getD 4 0 : ℚ) * 256 +
          ((completedFrame s).getD 5 0 : ℚ))) /
        ((32768 : ℚ) / (2 : ℚ) ^ toSigned8 ((completedFrame s).getD 6 0))] := by
  have h := (step_completes_frame s c hd hf hpr hc hh hbp hbc).1
  rw [h]
  simp [calculate_watts, hchk, powerOf]

/-- Witness for C2 at the concrete state `wFrameState`. -/
theorem power_formula_on_valid_frame_witness :
    (step wFrameState 0).output = wFrameState.output ++
      [((VOLTAGE : ℚ) * (((completedFrame wFrameState).getD 4 0 : ℚ) * 256 +
          ((completedFrame wFrameState).getD 5 0 : ℚ))) /
        ((32768 : ℚ) / (2 : ℚ) ^ toSigned8 ((completedFrame wFrameState).getD 6 0))] :=
  power_formula_on_valid_frame wFrameState 0 (by decide) (by decide) (by decide)
    (by decide) (by decide) (by decide) (by decide) (by decide)

/-- Claim C3 (code bug): a re-triggered calibration does not install the
mean of the next `CENTERSAMP` samples.  On `badFrameStream` the decoder
ends with `dcenter` re-armed and the stale center 100 still in the
accumulator; after 100 further samples that are all 0 (true mean 0), the
installed center is 1 = (100 + 0) / 100, not 0. -/
theorem stale_center_recalibration_bug :
    (runDecoder badFrameStream).dcenter = CENTERSAMP ∧
    (runDecoder badFrameStream).center = 100 ∧
    recalStream = badFrameStream ++ List.replicate CENTERSAMP 0 ∧
    (runDecoder recalStream).center = 1 ∧
    Int.tdiv ((List.replicate CENTERSAMP (0 : Int)).sum) (CENTERSAMP : Int) = 0 := by
  refine ⟨?_, ?_, rfl, ?_, by decide⟩
  · rw [runDecoder_badFrameStream]
    rfl
  · rw [runDecoder_badFrameStream]
    rfl
  · rw [runDecoder_recalStream]
    rfl

/-- Claim C4: at a qualifying negative edge during framing, a run of
exactly `MINLOWBIT` samples emits no bit and advances no counters; a run
of width in `(MINLOWBIT, MINHIGHBIT]` emits logic 0 (even assembled
byte); a run wider than `MINHIGHBIT` emits logic 1 (odd assembled byte);
the assembled byte goes to the accumulator, or to the byte buffer at a
byte boundary. -/
theorem pulse_width_bit_classification (s : DecState) (c : Int)
    (hd : s.dcenter = 0) (hf : s.frame = true) (hpr : s.center < s.prvsamp)
    (hc : c < s.center) (hdb : s.dbit < FRAMEBITCOUNT) :
    (s.hctr = MINLOWBIT →
      (step s c).dbit = s.dbit ∧ (step s c).bitpos = s.bitpos ∧
      (step s c).bytecount = s.bytecount ∧ (step s c).bytedata = s.bytedata) ∧
    (MINLOWBIT < s.hctr → s.hctr ≤ MINHIGHBIT →
      (step s c).dbit = s.dbit + 1 ∧ newByte s % 2 = 0 ∧
      (s.bitpos < 7 → (step s c).bytedata = newByte s) ∧
      (s.bitpos = 7 → (step s c).bytearray = s.bytearray.set s.bytecount (newByte s))) ∧
    (MINHIGHBIT < s.hctr →
      (step s c).dbit = s.dbit + 1 ∧ newByte s % 2 = 1 ∧
      (s.bitpos < 7 → (step s c).bytedata = newByte s) ∧
      (s.bitpos = 7 → (step s c).bytearray = s.bytearray.set s.bytecount (newByte s))) := by
  refine ⟨?_, ?_, ?_⟩
  · intro h3
    have hnd := step_noise_drop s c hd hpr hc (by rw [h3]; simp)
    exact ⟨hnd.1, hnd.2.2.1, hnd.2.2.2.1, hnd.2.2.2.2.1⟩
  · intro h1 h2
    have hcb := step_classify_bit s c hd hf hpr hc h1 hdb
    refine ⟨hcb.1, ?_, ?_, ?_⟩
    · simp only [newByte]
      rw [if_neg (by simp only [MINHIGHBIT] at h2 ⊢; omega)]
      omega
    · intro hlt
      exact (hcb.2.2.2 (by omega)).1
    · intro he7
      exact (hcb.2.2.1 (by omega)).1
  · intro h8
    have hcb := step_classify_bit s c hd hf hpr hc
      (by simp only [MINLOWBIT]; simp only [MINHIGHBIT] at h8; omega) hdb
    refine ⟨hcb.1, ?_, ?_, ?_⟩
    · simp only [newByte]
      rw [if_pos h8]
      omega
    · intro hlt
      exact (hcb.2.2.2 (by omega)).1
    · intro he7
      exact (hcb.2.2.1 (by omega)).1

/-- Witness for C4 at a concrete state: a run of exactly `MINHIGHBIT`
(8) samples classifies as logic 0 (the dead-zone boundary). -/
theorem pulse_width_bit_classification_witness :
    (step c4State (-1)).dbit = c4State.dbit + 1 ∧ newByte c4State % 2 = 0 ∧
    (step c4State (-1)).bytedata = newByte c4State := by
  have h := (pulse_width_bit_classification c4State (-1) (by decide) (by decide)
    (by decide) (by decide) (by decide)).2.1 (by decide) (by decide)
  exact ⟨h.1, h.2.1, h.2.2.1 (by decide)⟩

/-- Counterexample to claim C5 as stated: at `c5State` the previous
sample (5) is above the center (0), the current sample 0 satisfies
`cur ≤ center`, framing is active and the run width 5 exceeds
`MINLOWBIT`, yet no bit is classified (`dbit` does not advance); only
the pulse-counter reset happens. -/
theorem negative_edge_at_center_counterexample :
    c5State.dcenter = 0 ∧ c5State.center < c5State.prvsamp ∧
    (0 : Int) ≤ c5State.center ∧ c5State.frame = true ∧
    MINLOWBIT < c5State.hctr ∧
    (step c5State 0).hctr = 0 ∧
    ¬ ((step c5State 0).dbit = c5State.dbit + 1) := by decide

/-- Claim C5 as amended: classification requires the current sample to
be strictly below the center.  With `prev > center`: if `cur < center`
the run is classified iff framing is active and the width exceeds
`MINLOWBIT`, and the pulse counter resets; if `cur = center` the pulse
counter also resets but nothing is ever classified. -/
theorem negative_edge_strict_below_center (s : DecState) (c : Int)
    (hd : s.dcenter = 0) (hpr : s.center < s.prvsamp) :
    (c < s.center →
      (step s c).hctr = 0 ∧
      (s.frame = true → MINLOWBIT < s.hctr → s.dbit < FRAMEBITCOUNT →
        (step s c).dbit = s.dbit + 1) ∧
      (¬ (MINLOWBIT < s.hctr ∧ s.frame = true) →
        (step s c).dbit = s.dbit ∧ (step s c).bitpos = s.bitpos ∧
        (step s c).bytedata = s.bytedata ∧ (step s c).bytecount = s.bytecount)) ∧
    (c = s.center →
      (step s c).hctr = 0 ∧ (step s c).dbit = s.dbit ∧
      (step s c).bitpos = s.bitpos ∧ (step s c).bytecount = s.bytecount ∧
      (step s c).bytedata = s.bytedata) := by
  constructor
  · intro hc
    refine ⟨?_, ?_, ?_⟩
    · rw [step_hctr s c hd, caseStep_negedge s c hc hpr]
    · intro hf h1 hdb
      exact (step_classify_bit s c hd hf hpr hc h1 hdb).1
    · intro h4
      have hnd := step_noise_drop s c hd hpr hc h4
      exact ⟨hnd.1, hnd.2.2.1, hnd.2.2.2.2.1, hnd.2.2.2.1⟩
  · intro hc
    have h := step_center_equal s c hd (Or.inl hc)
    exact ⟨h.1, h.2.1, h.2.2.1, h.2.2.2.1, h.2.2.2.2.1⟩

/-- Witness for the amended C5: at `c5State` with a sample strictly
below the center, the bit is classified and the counter resets; with a
sample equal to the center, the counter resets and `dbit` is unchanged. -/
theorem negative_edge_strict_below_center_witness :
    ((step c5State (-1)).hctr = 0 ∧ (step c5State (-1)).dbit = c5State.dbit + 1) ∧
    ((step c5State 0).hctr = 0 ∧ (step c5State 0).dbit = c5State.dbit) := by
  have h := negative_edge_strict_below_center c5State (-1) (by decide) (by decide)
  have h0 := negative_edge_strict_below_center c5State 0 (by decide) (by decide)
  exact ⟨⟨(h.1 (by decide)).1,
          (h.1 (by decide)).2.1 (by decide) (by decide) (by decide)⟩,
         ⟨(h0.2 (by decide)).1, (h0.2 (by decide)).2.1⟩⟩

/-- Counterexample to claim C6 as stated: `bytecount` does not stay in
`0 .. E2BYTECOUNT - 1` in every reachable state; after the valid frame
of `validStream` is accepted, the decoder is left with `bytecount = 8`
(no reset follows a validated frame). -/
theorem bytecount_exceeds_seven_counterexample :
    ¬ ((runDecoder validStream).bytecount ≤ E2BYTECOUNT - 1) := by
  rw [runDecoder_validStream]
  decide

/-- Claim C6 as amended: in every reachable state `bitpos` is in 0..7
and `dbit = 8 * bytecount + bitpos ≤ FRAMEBITCOUNT` (so `bytecount ≤ 8`,
with `bytecount = 8` only at `bitpos = 0`, i.e. right after a completed
frame); and whenever a classified bit pushes the tally beyond
`FRAMEBITCOUNT`, the bit position, byte count, tally, accumulator and
the preamble and frame flags are all reset to zero. -/
theorem frame_counters_invariant_and_reset :
    (∀ samples : List Int, FrameInv (runDecoder samples)) ∧
    (∀ (s : DecState) (c : Int), s.dcenter = 0 → s.frame = true →
      s.center < s.prvsamp → c < s.center → MINLOWBIT < s.hctr →
      FRAMEBITCOUNT ≤ s.dbit →
      (step s c).bitpos = 0 ∧ (step s c).bytecount = 0 ∧ (step s c).dbit = 0 ∧
      (step s c).bytedata = 0 ∧ (step s c).preamble = false ∧
      (step s c).frame = false) :=
  ⟨fun samples => runSteps_inv samples initState initState_inv,
   fun s c hd hf hpr hc hh hdb => step_dbit_overflow s c hd hf hpr hc hh hdb⟩

/-- Witness for the amended C6: the invariant holds after the concrete
run over `validStream`, and at `c6State` (tally already 64) the next
classified bit resets all six fields. -/
theorem frame_counters_invariant_and_reset_witness :
    FrameInv (runDecoder validStream) ∧
    (step c6State (-1)).bitpos = 0 ∧ (step c6State (-1)).bytecount = 0 ∧
    (step c6State (-1)).dbit = 0 ∧ (step c6State (-1)).bytedata = 0 ∧
    (step c6State (-1)).preamble = false ∧ (step c6State (-1)).frame = false := by
  have h := frame_counters_invariant_and_reset
  have h2 := h.2 c6State (-1) (by decide) (by decide) (by decide) (by decide)
    (by decide) (by decide)
  exact ⟨h.1 validStream, h2.1, h2.2.1, h2.2.2.1, h2.2.2.2.1, h2.2.2.2.2.1,
    h2.2.2.2.2.2⟩

/-- Claim C7: the preamble flag is turned on only by a continuing-high
tick whose counter exceeds `PREAMBLE_COUNT`; framing never starts during
a continuing high; the frame flag turns on exactly at the first tick
where, after case evaluation, the pulse counter is 0 with the preamble
flag set, and at that tick the preamble flag is cleared. -/
theorem preamble_frame_handoff :
    (∀ (s : DecState) (c : Int), s.dcenter = 0 → s.preamble = false →
      (step s c).preamble = true →
      s.center < c ∧ s.center < s.prvsamp ∧ PREAMBLE_COUNT < s.hctr + 1) ∧
    (∀ (s : DecState) (c : Int), s.dcenter = 0 → s.frame = false →
      ((step s c).frame = true ↔
        ((caseStep s c).hctr = 0 ∧ (caseStep s c).preamble = true))) ∧
    (∀ (s : DecState) (c : Int), s.dcenter = 0 →
      (caseStep s c).hctr = 0 → (caseStep s c).preamble = true →
      (step s c).preamble = false ∧ (step s c).frame = true) ∧
    (∀ (s : DecState) (c : Int), s.dcenter = 0 → s.center < c →
      s.center < s.prvsamp → s.frame = false → (step s c).frame = false) :=
  ⟨fun s c hd hpf hps => step_preamble_on s c hd hpf hps,
   fun s c hd hf => step_frame_on s c hd hf,
   fun s c hd h1 h2 => step_handoff s c hd ⟨h1, h2⟩,
   fun s c hd h1 h2 hf => step_high_keeps_frame s c hd ⟨h1, h2⟩ hf⟩

/-- Witness for C7 at `c7State`: the low sample ending the preamble run
clears the preamble flag and activates framing. -/
theorem preamble_frame_handoff_witness :
    (step c7State (-5)).preamble = false ∧ (step c7State (-5)).frame = true :=
  preamble_frame_handoff.2.2.1 c7State (-5) (by decide) (by decide) (by decide)

/-- Claim C8: analysis-mode decoding selects a polarity by the third
captured sample against the recalibrated center: strictly below means
the positive-run histogram is decoded, otherwise the negative-run
histogram. -/
theorem analysis_polarity_selection (samples : List Int) :
    (analyze_efergy_message samples).wavecenter = analysisCenter samples ∧
    (samples.getD 2 0 < analysisCenter samples →
      (analyze_efergy_message samples).fromPositive = true ∧
      (analyze_efergy_message samples).bytes =
        (decode_bytes_from_pulse_counts
          (pulseRuns samples (analysisCenter samples))).1) ∧
    (¬ samples.getD 2 0 < analysisCenter samples →
      (analyze_efergy_message samples).fromPositive = false ∧
      (analyze_efergy_message samples).bytes =
        (decode_bytes_from_pulse_counts
          (spaceRuns samples (analysisCenter samples))).1) := by
  by_cases h : samples.getD 2 0 < analysisCenter samples
  · simp only [analyze_efergy_message]
    rw [if_pos h]
    exact ⟨rfl, fun _ => ⟨rfl, rfl⟩, fun hcon => absurd h hcon⟩
  · simp only [analyze_efergy_message]
    rw [if_neg h]
    exact ⟨rfl, fun hcon => absurd hcon h, fun _ => ⟨rfl, rfl⟩⟩

/-- Witness for C8 at `c8Samples`: the recalibrated center is 0, the
third sample (-100) lies below it, and decoding runs on the positive-run
histogram. -/
theorem analysis_polarity_selection_witness :
    (analyze_efergy_message c8Samples).fromPositive = true ∧
    (analyze_efergy_message c8Samples).bytes =
      (decode_bytes_from_pulse_counts
        (pulseRuns c8Samples (analysisCenter c8Samples))).1 := by
  refine (analysis_polarity_selection c8Samples).2.1 ?_
  have hc : analysisCenter c8Samples = 0 := by
    norm_num [analysisCenter, analysisDifference, avg_pos, avg_neg, posSamples,
      negSamples, c8Samples, ratTrunc, List.filter]
  rw [hc]
  decide

/-- Claim C9: the analysis capture buffer is bounded by
`SAMPLE_STORE_SIZE`, what is stored is always a prefix of the incoming
samples (nothing is overwritten), and once the input reaches capacity
the capture stops at exactly `SAMPLE_STORE_SIZE` samples, the analysis
runs on a prefix of the captured samples (the first
`SAMPLE_STORE_SIZE - 1` of them, since the analysis call sees
`sample_store_index = SAMPLE_STORE_SIZE - 1`), and the remaining samples
stay unconsumed for the next round (whose capture starts again at
index 0). -/
theorem analysis_capture_bounded (input : List Int) :
    (captureLoop input 0).1.length ≤ SAMPLE_STORE_SIZE ∧
    (captureLoop input 0).1 = input.take ((captureLoop input 0).1.length) ∧
    (SAMPLE_STORE_SIZE ≤ input.length →
      captureLoop input 0 =
        (input.take SAMPLE_STORE_SIZE, input.drop SAMPLE_STORE_SIZE, true) ∧
      (analysisRound input).1 =
        some (analyze_efergy_message (input.take (SAMPLE_STORE_SIZE - 1))) ∧
      (analysisRound input).2 = input.drop SAMPLE_STORE_SIZE) := by
  have hspec := captureLoop_spec input 0 (by decide)
  simp only [Nat.sub_zero] at hspec
  have hmin : min (SAMPLE_STORE_SIZE - 1) SAMPLE_STORE_SIZE = SAMPLE_STORE_SIZE - 1 := by
    decide
  by_cases h : SAMPLE_STORE_SIZE ≤ input.length
  · have he := hspec.1 h
    have hlen : (input.take SAMPLE_STORE_SIZE).length = SAMPLE_STORE_SIZE := by
      simp [List.length_take]
      omega
    refine ⟨?_, ?_, fun _ => ⟨he, ?_, ?_⟩⟩
    · rw [he]
      simp [List.length_take]
    · rw [he]
      simp only [hlen]
    · simp [analysisRound, he, List.take_take, hmin]
    · simp [analysisRound, he]
  · have he := hspec.2 (by omega)
    rw [he]
    refine ⟨?_, by simp, fun hh => absurd hh h⟩
    simp
    omega

/-- Witness for C9 at `c9Input` (1400 samples, capacity 1368): 1368
samples are captured, the analysis runs on the first 1367 of them, and
the remaining 32 samples are left for the next round. -/
theorem analysis_capture_bounded_witness :
    (captureLoop c9Input 0).1.length ≤ SAMPLE_STORE_SIZE ∧
    captureLoop c9Input 0 =
      (c9Input.take SAMPLE_STORE_SIZE, c9Input.drop SAMPLE_STORE_SIZE, true) ∧
    (analysisRound c9Input).1 =
      some (analyze_efergy_message (c9Input.take (SAMPLE_STORE_SIZE - 1))) := by
  have h := analysis_capture_bounded c9Input
  have hfull : SAMPLE_STORE_SIZE ≤ c9Input.length := by
    simp [c9Input, SAMPLE_STORE_SIZE, ANALYZEBYTECOUNT, SAMPLES_PER_BIT]
  exact ⟨h.1, (h.2.2 hfull).1, (h.2.2 hfull).2.1⟩

/-- Claim C10: a sample equal to the wave center never belongs to a high
run: whenever the current or previous sample equals the center, no edge
case fires, the pulse counter is reset, and no bit is classified — a
high run terminated by a center-valued sample is silently discarded. -/
theorem center_sample_suppresses_bit (s : DecState) (c : Int)
    (hd : s.dcenter = 0) (heq : c = s.center ∨ s.prvsamp = s.center) :
    (step s c).hctr = 0 ∧ (step s c).dbit = s.dbit ∧
    (step s c).bitpos = s.bitpos ∧ (step s c).bytecount = s.bytecount ∧
    (step s c).bytedata = s.bytedata ∧ (step s c).bytearray = s.bytearray ∧
    (step s c).output = s.output :=
  step_center_equal s c hd heq

/-- Witness for C10 at `c10State`: a width-6 high run terminated by a
center-valued sample resets the counter and emits nothing. -/
theorem center_sample_suppresses_bit_witness :
    (step c10State 0).hctr = 0 ∧ (step c10State 0).dbit = c10State.dbit ∧
    (step c10State 0).bytedata = c10State.bytedata := by
  have h := center_sample_suppresses_bit c10State 0 (by decide)
    (Or.inl (by decide))
  exact ⟨h.1, h.2.1, h.2.2.2.2.1⟩
